import Mathlib

/-!
# Verification of the media-ingestion and pricing components

Shallow embedding of the repository's media manager (`ProductImageManager`),
upload pipeline (`uploadProductImages` and friends) and pricing presenter
(`TieredPricingTable`), with theorems settling the specification claims.

Monetary values are modelled with `ℚ` (the arithmetic in the claims is exact
at the relevant inputs), nondeterministic effects (uuid generation, object-URL
creation, storage failures) are modelled as explicit oracle parameters, and
browser side effects (`URL.revokeObjectURL`, toasts, console logs) are
modelled as explicit event traces.
-/

namespace Labarel

/-- A candidate file, as far as the logic under verification observes it. -/
structure MFile where
  name : String
  size : Nat
deriving DecidableEq

/-- The `MediaItem` record of `ProductImageManager` (part_000, lines 11-20). -/
structure MediaItem where
  id : String
  url : String
  file : Option MFile
  isFeatured : Bool
  mediaType : String
  fileHash : Option String
  visualFingerprint : Option String
  blobUrl : Option String
deriving DecidableEq

/-- Modelled from the spec: the result record of
`validateFilesWithMultiLayerValidation` (from `@/lib/fileValidation`, whose
source is not part of the repository snapshot). Per spec §4.1 the validator
produces the accepted files in input order, per-file rejection reasons,
duplicate filenames and per-accepted-file maps from filename to hash,
fingerprint and blob-url. -/
structure ValidationResult where
  validFiles : List MFile
  invalid : List (String × String)
  duplicates : List String
  hashes : String → Option String
  fingerprints : String → Option String
  blobUrls : String → Option String

/-- The mutable state of one `ProductImageManager` instance:
`processingQueueRef` (busy flag), the `images` prop list,
`fileReferencesRef` (map id ↦ (file, object URL)) and the trace of
object URLs passed to `URL.revokeObjectURL` so far. -/
structure MMState where
  busy : Bool
  images : List MediaItem
  refs : String → Option (MFile × String)
  revoked : List String

/-- The observable outcome of one `handleFileSelect` call. -/
inductive AddResult
  | emptyInput
  | busyRejected
  | limitReached
  | noValidFiles
  | added (count : Nat)
deriving DecidableEq

/-- The `validationResult.validFiles.map((file, index) => ...)` body of
`handleFileSelect` (part_000, lines 109-138). `ids` and `urls` are oracles
for `uuidv4()` and `URL.createObjectURL`, indexed by the map index. -/
def mkItemsFrom (images : List MediaItem) (vr : ValidationResult)
    (ids urls : Nat → String) : Nat → List MFile → List MediaItem
  | _, [] => []
  | index, f :: rest =>
    { id := "new-" ++ ids index
      url := urls index
      file := some f
      isFeatured := (images.length == 0) && (index == 0)
      mediaType := "image"
      fileHash := some ((vr.hashes f.name).getD "")
      visualFingerprint := some ((vr.fingerprints f.name).getD "")
      blobUrl := some ((vr.blobUrls f.name).getD "") } ::
        mkItemsFrom images vr ids urls (index + 1) rest

/-- The `fileReferencesRef.current.set(uniqueId, { file, url })` effect of the
same loop, threaded over the reference map. -/
def addRefs (refs : String → Option (MFile × String))
    (ids urls : Nat → String) : Nat → List MFile → (String → Option (MFile × String))
  | _, [] => refs
  | index, f :: rest =>
    addRefs (fun k => if k == "new-" ++ ids index then some (f, urls index) else refs k)
      ids urls (index + 1) rest

/-- Embeds `handleFileSelect` (part_000, lines 51-158). The validator is passed as a
function (its source is external to the snapshot); `ids`/`urls` are oracles
for uuid and object-URL generation. The busy flag is set on entry and cleared
in the `finally` block, so every non-rejected exit leaves `busy = false`. -/
def handleFileSelect (maxImages : Nat) (st : MMState) (files : List MFile)
    (validate : List MFile → ValidationResult) (ids urls : Nat → String) :
    AddResult × MMState :=
  if files.isEmpty then (.emptyInput, st)
  else if st.busy then (.busyRejected, st)
  else
    let stb := { st with busy := true }
    let remainingSlots := maxImages - stb.images.length
    let filesToAdd := files.take remainingSlots
    if filesToAdd.isEmpty then (.limitReached, { stb with busy := false })
    else
      let vr := validate filesToAdd
      if vr.validFiles.isEmpty then (.noValidFiles, { stb with busy := false })
      else
        let newImages := mkItemsFrom stb.images vr ids urls 0 vr.validFiles
        let refs := addRefs stb.refs ids urls 0 vr.validFiles
        (.added newImages.length,
          { stb with images := stb.images ++ newImages, refs := refs, busy := false })

/-- Embeds `remainingImages[0].isFeatured = true` (part_000, line 233). -/
def promoteHead : List MediaItem → List MediaItem
  | [] => []
  | h :: t => { h with isFeatured := true } :: t

/-- The list part of `removeImage` (part_000, lines 228-252). -/
def removeImageList (images : List MediaItem) (imageId : String) : List MediaItem :=
  let imageToRemove := images.find? (fun img => img.id == imageId)
  let remainingImages := images.filter (fun img => !(img.id == imageId))
  match imageToRemove with
  | some itr =>
    if itr.isFeatured && decide (0 < remainingImages.length) then
      promoteHead remainingImages
    else remainingImages
  | none => remainingImages

/-- Embeds `removeImage` (part_000, lines 228-252): removes the item, promotes the
first remaining item when the removed one was featured, revokes and deletes
the file reference held for the id. (The global blob-url registry call
`revokeBlobUrl` is external bookkeeping not observed by any claim.) -/
def removeImage (st : MMState) (imageId : String) : MMState :=
  let images' := removeImageList st.images imageId
  match st.refs imageId with
  | some r =>
    { st with
      images := images'
      refs := fun k => if k == imageId then none else st.refs k
      revoked := st.revoked ++ [r.2] }
  | none => { st with images := images' }

/-- Embeds `setFeaturedImage` (part_000, lines 220-226). -/
def setFeaturedImage (st : MMState) (imageId : String) : MMState :=
  { st with images := st.images.map (fun img => { img with isFeatured := img.id == imageId }) }

/-- The per-element body of the `images.map` in `handleCropComplete`
(part_000, lines 166-179), acting on the item, the reference map and the
revocation trace. -/
def cropFold (cropId : String) (croppedFile : MFile) (newUrl : String)
    (acc : List MediaItem × ((String → Option (MFile × String)) × List String))
    (img : MediaItem) :
    List MediaItem × ((String → Option (MFile × String)) × List String) :=
  let items := acc.1
  let refs := acc.2.1
  let revoked := acc.2.2
  if img.id == cropId then
    let revoked' := match refs img.id with
      | some r => revoked ++ [r.2]
      | none => revoked
    let refs' := fun k => if k == img.id then some (croppedFile, newUrl) else refs k
    (items ++ [{ img with url := newUrl, file := some croppedFile }], refs', revoked')
  else
    (items ++ [img], refs, revoked)

/-- Embeds `handleCropComplete` (part_000, lines 160-186), for a non-null
`imageToRecrop` with id `cropId`. `croppedFile` is the re-encoded blob wrapped
as a file; `newUrl` is the object URL created for it. (In the source the URL
is created inside the map body; ids are unique in every reachable state, so at
most one element matches and a single oracle value is faithful.) -/
def handleCropComplete (st : MMState) (cropId : String)
    (croppedFile : MFile) (newUrl : String) : MMState :=
  let r := st.images.foldl (cropFold cropId croppedFile newUrl) ([], st.refs, st.revoked)
  { st with images := r.1, refs := r.2.1, revoked := r.2.2 }

/-- Number of items with `isFeatured = true`. -/
def featuredCount (l : List MediaItem) : Nat := l.countP (·.isFeatured)

/-! ## Upload pipeline (part_000, lines 413-724) -/

/-- The persisted `UploadedImage` record (part_000, lines 413-419). -/
structure UploadedImage where
  id : String
  url : String
  is_featured : Bool
  media_type : String
  display_order : Nat
deriving DecidableEq

/-- Per-file outcome oracle for `uploadProductImages`: compression /
upload either succeed, or the storage upload returns an error object
(`uploadError`, part_000 line 518), or an exception is thrown while
processing (caught at part_000 line 539). -/
inductive UploadOutcome
  | success
  | uploadError
  | processError
deriving DecidableEq

/-- The `for` loop of `uploadProductImages` (part_000, lines 498-543),
recursing over the files with the loop index `i`. `outcome i` is the fate of
file `i`, `urlOf i` its public URL, `now` the `Date.now()` value used in the
generated id. Returns the accumulated `uploadedImages` together with the
indices for which a failure toast was emitted. -/
def uploadLoop (outcome : Nat → UploadOutcome) (urlOf : Nat → String) (now : Nat) :
    Nat → List MFile → List UploadedImage × List Nat
  | _, [] => ([], [])
  | i, _f :: fs =>
    match outcome i with
    | .success =>
      let rest := uploadLoop outcome urlOf now (i + 1) fs
      ({ id := "new-" ++ toString now ++ "-" ++ toString i
         url := urlOf i
         is_featured := i == 0
         media_type := "image"
         display_order := i } :: rest.1, rest.2)
    | _ =>
      let rest := uploadLoop outcome urlOf now (i + 1) fs
      (rest.1, i :: rest.2)

/-- Embeds `uploadProductImages` (part_000, lines 487-550): early-returns `[]` on an
empty batch, otherwise runs the sequential loop. Total in the model: every
per-file failure is caught inside the loop (`continue` / per-item `catch`), so
the function itself returns normally with the partial result. -/
def uploadProductImages (files : List MFile)
    (outcome : Nat → UploadOutcome) (urlOf : Nat → String) (now : Nat) :
    List UploadedImage × List Nat :=
  if files.isEmpty then ([], [])
  else uploadLoop outcome urlOf now 0 files

/-! ## Deletion (part_000, lines 585-606 and 696-724) -/

/-- Observable events of the deletion functions. -/
inductive DelEvent
  | storageRemove (path : String)
  | storageRemoveFailed (path : String)
  | rowDelete (ids : List String)
deriving DecidableEq

/-- Returns `true` iff the first list is a leading segment of the second. -/
def startsWith : List Char → List Char → Bool
  | [], _ => true
  | _ :: _, [] => false
  | s :: ss, c :: cs => (s == c) && startsWith ss cs

/-- The characters after the first occurrence of `sep`, `none` when absent. -/
def afterFirst (sep : List Char) : List Char → Option (List Char)
  | [] => none
  | c :: cs =>
    if startsWith sep (c :: cs) then some ((c :: cs).drop sep.length)
    else afterFirst sep cs

/-- The characters before the next occurrence of `sep`. -/
def upToMarker (sep : List Char) : List Char → List Char
  | [] => []
  | c :: cs => if startsWith sep (c :: cs) then [] else c :: upToMarker sep cs

/-- Embeds `urlObj.pathname.split('/public/')[1]` (part_000, line 588): the segment
between the first and second occurrence of `/public/`, `none` when the marker
is absent (or when `new URL` throws — both cases skip the storage call). -/
def extractStoragePath (imageUrl : String) : Option String :=
  (afterFirst "/public/".data imageUrl.data).map
    (fun cs => String.mk (upToMarker "/public/".data cs))

/-- The retry-wrapped `supabase.storage.from('public').remove([path])` call
(part_000, lines 591-601); `storageFail path` says the call still fails after
the bounded retries. -/
def storageRemoveOp (path : String) (storageFail : String → Bool) :
    Except String DelEvent :=
  if storageFail path then Except.error ("storage error: " ++ path)
  else Except.ok (DelEvent.storageRemove path)

/-- Embeds `deleteProductImage` (part_000, lines 585-606). The surrounding
`try/catch` logs a storage failure (`storageRemoveFailed` event) and returns
normally — the model's return type carries no error, mirroring that nothing
is re-raised to the caller. -/
def deleteProductImage (imageUrl : String) (storageFail : String → Bool) :
    List DelEvent :=
  match extractStoragePath imageUrl with
  | none => []
  | some path =>
    match storageRemoveOp path storageFail with
    | Except.ok e => [e]
    | Except.error _ => [DelEvent.storageRemoveFailed path]

/-- Embeds `deleteProductImages` (part_000, lines 696-724): fetches the stored urls
for the ids (`recordUrls`, the oracle for the select), attempts best-effort
storage removal for each (each wrapped in its own `catch`), then deletes the
metadata rows. The returned trace is the sequence of attempted effects. -/
def deleteProductImages (imageIds : List String) (recordUrls : List String)
    (storageFail : String → Bool) : List DelEvent :=
  (recordUrls.flatMap (fun url => deleteProductImage url storageFail))
    ++ [DelEvent.rowDelete imageIds]

/-! ## Pricing presenter (TieredPricingTable.tsx) -/

/-- The `PriceTier` record as consumed by `TieredPricingTable`. -/
structure PriceTier where
  id : String
  min_quantity : Nat
  unit_price : ℚ
  discounted_unit_price : Option ℚ
deriving DecidableEq

/-- Embeds `Math.round` on exact rationals: round half toward positive infinity. -/
def jsRound (x : ℚ) : ℤ := ⌊x + 1 / 2⌋

/-- Embeds `calculateSavingsPercentage` (TieredPricingTable.tsx, lines 26-29). -/
def calculateSavingsPercentage (originalPrice newPrice : ℚ) : ℤ :=
  if originalPrice ≤ 0 then 0
  else jsRound ((originalPrice - newPrice) / originalPrice * 100)

/-- Embeds `[...tiers].sort((a, b) => a.min_quantity - b.min_quantity)`
(TieredPricingTable.tsx, line 23): JS `Array.prototype.sort` is stable, so
this is the stable sort by `min_quantity` ascending. -/
def sortTiers (tiers : List PriceTier) : List PriceTier :=
  tiers.insertionSort (fun a b => a.min_quantity ≤ b.min_quantity)

/-- Embeds `const baseUnitPrice = baseDiscountedPrice || basePrice`
(TieredPricingTable.tsx, line 24): an absent or zero (falsy) discounted base
price falls back to the base price. -/
def baseUnitPriceOf (basePrice : ℚ) (baseDiscountedPrice : Option ℚ) : ℚ :=
  match baseDiscountedPrice with
  | some p => if p = 0 then basePrice else p
  | none => basePrice

/-- Embeds `const discountedPrice = tier.discounted_unit_price || null`
(TieredPricingTable.tsx, line 58): `0` is falsy and becomes `null`. -/
def discountedOf (t : PriceTier) : Option ℚ :=
  match t.discounted_unit_price with
  | some p => if p = 0 then none else some p
  | none => none

/-- Embeds `effectivePrice` (TieredPricingTable.tsx, lines 59-61): the discounted
price when present, positive and strictly below the list price, else the
list price. -/
def effectivePrice (t : PriceTier) : ℚ :=
  match discountedOf t with
  | some dp => if 0 < dp ∧ dp < t.unit_price then dp else t.unit_price
  | none => t.unit_price

/-- The values derived per rendered row (TieredPricingTable.tsx, lines 57-70). -/
structure TierRow where
  unitPrice : ℚ
  effective : ℚ
  totalAtQty : ℚ
  savings : ℚ
  savingsPercentage : ℤ
  discountPercentage : ℤ
  hasDiscount : Bool
deriving DecidableEq

/-- The row computation of `sortedTiers.map` (TieredPricingTable.tsx,
lines 57-70) for one tier. -/
def tierRow (baseUnitPrice : ℚ) (t : PriceTier) : TierRow :=
  let unitPrice := t.unit_price
  let discountedPrice := discountedOf t
  let eff := effectivePrice t
  { unitPrice := unitPrice
    effective := eff
    totalAtQty := eff * t.min_quantity
    savings := baseUnitPrice * t.min_quantity - eff * t.min_quantity
    savingsPercentage := calculateSavingsPercentage baseUnitPrice eff
    discountPercentage :=
      match discountedPrice with
      | some dp =>
        if 0 < dp ∧ dp < unitPrice then calculateSavingsPercentage unitPrice dp else 0
      | none => 0
    hasDiscount :=
      match discountedPrice with
      | some dp => decide (0 < dp ∧ dp < unitPrice)
      | none => false }

/-- The full derived table: sorted tiers mapped through the row computation. -/
def tieredPricingRows (tiers : List PriceTier) (basePrice : ℚ)
    (baseDiscountedPrice : Option ℚ) : List TierRow :=
  (sortTiers tiers).map (tierRow (baseUnitPriceOf basePrice baseDiscountedPrice))

/-! ## Concrete data used by examples, witnesses and counterexamples -/

/-- The tier list of the spec's pricing example:
`[{minQty:10, unit:9.00}, {minQty:50, unit:7.00}, {minQty:5, unit:9.50}]`. -/
def exampleTiers : List PriceTier :=
  [⟨"tier-10", 10, 9, none⟩, ⟨"tier-50", 50, 7, none⟩, ⟨"tier-5", 5, 19 / 2, none⟩]

/-- A concrete 3-file upload batch. -/
def exampleBatch3 : List MFile :=
  [⟨"a.png", 100⟩, ⟨"b.png", 200⟩, ⟨"c.png", 300⟩]

/-- Outcome oracle: the 2nd file (index 1) fails with a storage error. -/
def outcomeSecondFails : Nat → UploadOutcome :=
  fun i => if i == 1 then .uploadError else .success

/-- Outcome oracle: every file succeeds. -/
def outcomeAllSuccess : Nat → UploadOutcome := fun _ => .success

/-- A concrete public-URL oracle. -/
def exUrl : Nat → String := fun i => "https://cdn.example/public/product/u/" ++ toString i

/-! ## Pricing presenter theorems (C7, C8) -/

/-- The `uploadedImage` record built at loop index `j`
(part_000, lines 528-534). -/
def uploadedRecord (urlOf : Nat → String) (now : Nat) (j : Nat) : UploadedImage :=
  { id := "new-" ++ toString now ++ "-" ++ toString j
    url := urlOf j
    is_featured := j == 0
    media_type := "image"
    display_order := j }

lemma sortTiers_sorted (ts : List PriceTier) :
    List.Sorted (fun a b => a.min_quantity ≤ b.min_quantity) (sortTiers ts) := by
  haveI : IsTotal PriceTier (fun a b => a.min_quantity ≤ b.min_quantity) :=
    ⟨fun a b => Nat.le_total a.min_quantity b.min_quantity⟩
  haveI : IsTrans PriceTier (fun a b => a.min_quantity ≤ b.min_quantity) :=
    ⟨fun _ _ _ hab hbc => Nat.le_trans hab hbc⟩
  exact List.sorted_insertionSort _ ts

lemma sortTiers_perm (ts : List PriceTier) : (sortTiers ts).Perm ts :=
  List.perm_insertionSort _ ts

/-- C7: the pricing presenter orders tiers ascending by minimum quantity and
computes each tier's savings percentage as `round((base - effective) / base *
100)` relative to the base unit price; on the spec's example tiers with base
price 10.00 and no discounted base price, the sorted order is 5, 10, 50 and
the savings-percentage column is [5, 10, 30] (in particular 30 for the
minQty-50 tier). -/
theorem c7_tier_sort_and_savings :
    (∀ ts : List PriceTier,
        List.Sorted (fun a b => a.min_quantity ≤ b.min_quantity) (sortTiers ts)
        ∧ (sortTiers ts).Perm ts)
    ∧ (∀ base eff : ℚ, 0 < base →
        calculateSavingsPercentage base eff = jsRound ((base - eff) / base * 100))
    ∧ ((sortTiers exampleTiers).map (·.min_quantity) = [5, 10, 50])
    ∧ ((tieredPricingRows exampleTiers 10 none).map (·.savingsPercentage) = [5, 10, 30]) := by
  refine ⟨fun ts => ⟨sortTiers_sorted ts, sortTiers_perm ts⟩, ?_, ?_, ?_⟩
  · intro base eff hbase
    rw [calculateSavingsPercentage, if_neg (not_le.mpr hbase)]
  · decide
  · have hsort : sortTiers exampleTiers
        = [⟨"tier-5", 5, 19 / 2, none⟩, ⟨"tier-10", 10, 9, none⟩,
           ⟨"tier-50", 50, 7, none⟩] := by
      simp [sortTiers, exampleTiers, List.insertionSort, List.orderedInsert]
    rw [tieredPricingRows, hsort]
    simp only [List.map_cons, List.map_nil]
    rw [show baseUnitPriceOf 10 none = 10 from rfl]
    norm_num [tierRow, effectivePrice, discountedOf, calculateSavingsPercentage,
      jsRound]

/-- Witness for C7 at base price 10 and effective price 7. -/
theorem c7_witness :
    calculateSavingsPercentage 10 7 = jsRound ((10 - 7) / 10 * 100) :=
  c7_tier_sort_and_savings.2.1 10 7 (by norm_num)

/-- C8: a discounted unit price that is absent, zero, negative, or at least
the list price is never an active discount — the effective price is the list
price — while a positive discounted price strictly below the list price is
used; and the effective price is exactly the one feeding the row's total and
savings percentage. -/
theorem c8_discount_activation :
    (∀ t : PriceTier, t.discounted_unit_price = none →
        effectivePrice t = t.unit_price)
    ∧ (∀ (t : PriceTier) (d : ℚ), t.discounted_unit_price = some d →
        d ≤ 0 ∨ t.unit_price ≤ d → effectivePrice t = t.unit_price)
    ∧ (∀ (t : PriceTier) (d : ℚ), t.discounted_unit_price = some d →
        0 < d → d < t.unit_price → effectivePrice t = d)
    ∧ (∀ (b : ℚ) (t : PriceTier),
        (tierRow b t).totalAtQty = effectivePrice t * t.min_quantity
        ∧ (tierRow b t).savingsPercentage
            = calculateSavingsPercentage b (effectivePrice t)) := by
  refine ⟨?_, ?_, ?_, fun b t => ⟨rfl, rfl⟩⟩
  · intro t ht
    simp [effectivePrice, discountedOf, ht]
  · intro t d ht hd
    by_cases hd0 : d = 0
    · simp [effectivePrice, discountedOf, ht, hd0]
    · have hcond : ¬(0 < d ∧ d < t.unit_price) := by
        rcases hd with h | h
        · exact fun hc => absurd hc.1 (not_lt.mpr h)
        · exact fun hc => absurd hc.2 (not_lt.mpr h)
      simp [effectivePrice, discountedOf, ht, hd0, hcond]
  · intro t d ht hpos hlt
    have hd0 : d ≠ 0 := ne_of_gt hpos
    simp [effectivePrice, discountedOf, ht, hd0, hpos, hlt]

/-- Witness for C8: a zero discount, an above-list discount, and an active
discount, all on concrete tiers. -/
theorem c8_witness :
    effectivePrice ⟨"z", 10, 5, some 0⟩ = 5
    ∧ effectivePrice ⟨"h", 10, 5, some 6⟩ = 5
    ∧ effectivePrice ⟨"a", 10, 5, some 3⟩ = 3 :=
  ⟨c8_discount_activation.2.1 ⟨"z", 10, 5, some 0⟩ 0 rfl (Or.inl (by norm_num)),
   c8_discount_activation.2.1 ⟨"h", 10, 5, some 6⟩ 6 rfl (Or.inr (by norm_num)),
   c8_discount_activation.2.2.1 ⟨"a", 10, 5, some 3⟩ 3 rfl (by norm_num) (by norm_num)⟩

/-! ## Upload pipeline theorems (C2, C4) -/

lemma uploadLoop_spec (outcome : Nat → UploadOutcome) (urlOf : Nat → String)
    (now : Nat) :
    ∀ (fs : List MFile) (i : Nat),
      uploadLoop outcome urlOf now i fs
        = (((List.range' i fs.length).filter (fun j => outcome j == .success)).map
            (uploadedRecord urlOf now),
           (List.range' i fs.length).filter (fun j => !(outcome j == .success))) := by
  intro fs
  induction fs with
  | nil => intro i; simp [uploadLoop]
  | cons f fs ih =>
    intro i
    rw [uploadLoop]
    rcases houtcome : outcome i with _ | _ | _ <;>
      simp [List.range'_succ, List.filter_cons, houtcome, ih (i + 1), uploadedRecord]

lemma uploadProductImages_spec (files : List MFile) (outcome : Nat → UploadOutcome)
    (urlOf : Nat → String) (now : Nat) :
    uploadProductImages files outcome urlOf now
      = (((List.range files.length).filter (fun j => outcome j == .success)).map
          (uploadedRecord urlOf now),
         (List.range files.length).filter (fun j => !(outcome j == .success))) := by
  rw [uploadProductImages]
  rcases files with _ | ⟨f, fs⟩
  · simp
  · rw [if_neg (by simp)]
    rw [uploadLoop_spec, List.range_eq_range']

/-- C4: a failure uploading or processing one file does not halt the batch —
the pipeline returns (normally, raising nothing) exactly the records of the
files that succeeded, and reports exactly the failed indices; in particular
the 3-file batch whose 2nd file fails yields exactly 2 records and a failure
report only for file 2 (index 1). -/
theorem c4_partial_failure_continues :
    (∀ (files : List MFile) (outcome : Nat → UploadOutcome)
        (urlOf : Nat → String) (now : Nat),
      (uploadProductImages files outcome urlOf now).1
        = ((List.range files.length).filter (fun j => outcome j == .success)).map
            (uploadedRecord urlOf now)
      ∧ (uploadProductImages files outcome urlOf now).2
        = (List.range files.length).filter (fun j => !(outcome j == .success)))
    ∧ ((uploadProductImages exampleBatch3 outcomeSecondFails exUrl 0).1.length = 2
       ∧ (uploadProductImages exampleBatch3 outcomeSecondFails exUrl 0).2 = [1]) := by
  constructor
  · intro files outcome urlOf now
    rw [uploadProductImages_spec]
    exact ⟨rfl, rfl⟩
  · constructor <;> decide

/-- C2 counterexample: on the 3-file batch whose 2nd file fails, the returned
records carry display orders [0, 2] — not the dense 0-based sequence [0, 1]
the claim asserts for batches with failures. -/
theorem c2_counterexample :
    ¬ ((uploadProductImages exampleBatch3 outcomeSecondFails exUrl 0).1.map
          (·.display_order)
        = List.range
            (uploadProductImages exampleBatch3 outcomeSecondFails exUrl 0).1.length) := by
  decide

/-- C2 (amended): when every file of the batch uploads successfully, the
returned records have display_order 0, 1, 2, ... (dense, 0-based) and, for a
non-empty batch, exactly one record is featured, namely the first one, at
display_order 0. (With failures, each surviving record keeps its original
batch index as display_order, so gaps appear — see the counterexample.) -/
theorem c2_display_order_dense_on_success (files : List MFile)
    (outcome : Nat → UploadOutcome) (urlOf : Nat → String) (now : Nat)
    (hall : ∀ i, i < files.length → outcome i = .success) :
    ((uploadProductImages files outcome urlOf now).1.map (·.display_order)
      = List.range files.length)
    ∧ (files ≠ [] →
        (uploadProductImages files outcome urlOf now).1.countP (·.is_featured) = 1
        ∧ ((uploadProductImages files outcome urlOf now).1.head?.map (·.display_order)
            = some 0)
        ∧ ((uploadProductImages files outcome urlOf now).1.head?.map (·.is_featured)
            = some true)) := by
  rw [uploadProductImages_spec]
  have hfilter : (List.range files.length).filter (fun j => outcome j == .success)
      = List.range files.length := by
    apply List.filter_eq_self.mpr
    intro j hj
    simp only [beq_iff_eq]
    exact hall j (List.mem_range.mp hj)
  rw [hfilter]
  constructor
  · simp [Function.comp_def, uploadedRecord]
  · intro hne
    have hlen : 0 < files.length := List.length_pos.mpr hne
    obtain ⟨m, hm⟩ : ∃ m, files.length = m + 1 :=
      ⟨files.length - 1, (Nat.succ_pred_eq_of_pos hlen).symm⟩
    rw [hm, List.range_eq_range', List.range'_succ]
    refine ⟨?_, by simp [uploadedRecord], by simp [uploadedRecord]⟩
    simp only [List.map_cons, List.countP_cons, uploadedRecord]
    have hz : ∀ l : List Nat, (∀ j ∈ l, j ≠ 0) →
        (l.map (uploadedRecord urlOf now)).countP (·.is_featured) = 0 := by
      intro l
      induction l with
      | nil => intro; simp
      | cons a l ihl =>
        intro hj
        simp only [List.map_cons, List.countP_cons, uploadedRecord]
        have ha : (a == 0) = false := beq_eq_false_iff_ne.mpr (hj a (by simp))
        simp [ha, ihl (fun j hjl => hj j (by simp [hjl]))]
    rw [hz (List.range' 1 m) (fun j hjl => by
      have := (List.mem_range'_1.mp hjl).1
      omega)]
    simp

/-- Witness for the amended C2 on a concrete all-success 3-file batch. -/
theorem c2_amended_witness :
    ((uploadProductImages exampleBatch3 outcomeAllSuccess exUrl 0).1.map
        (·.display_order) = List.range exampleBatch3.length)
    ∧ (exampleBatch3 ≠ [] →
        (uploadProductImages exampleBatch3 outcomeAllSuccess exUrl 0).1.countP
            (·.is_featured) = 1
        ∧ ((uploadProductImages exampleBatch3 outcomeAllSuccess exUrl 0).1.head?.map
            (·.display_order) = some 0)
        ∧ ((uploadProductImages exampleBatch3 outcomeAllSuccess exUrl 0).1.head?.map
            (·.is_featured) = some true)) :=
  c2_display_order_dense_on_success exampleBatch3 outcomeAllSuccess exUrl 0
    (fun _ _ => rfl)

/-! ## Deletion theorems (C6) -/

/-- Whether an event is a storage-side event (attempt or logged failure). -/
def DelEvent.isStorageEvent : DelEvent → Bool
  | .storageRemove _ => true
  | .storageRemoveFailed _ => true
  | .rowDelete _ => false

lemma deleteProductImage_isStorageEvent (u : String) (sf : String → Bool) :
    ∀ e ∈ deleteProductImage u sf, e.isStorageEvent = true := by
  intro e he
  rw [deleteProductImage] at he
  rcases hpath : extractStoragePath u with _ | path <;> simp only [hpath] at he
  · simp at he
  · rw [storageRemoveOp] at he
    rcases hsf : sf path with _ | _ <;> simp [hsf] at he <;> subst he <;> rfl

/-- C6: a storage-removal failure during image deletion is converted into a
logged event and never re-raised (the deletion functions return normally with
their effect trace), and in the bulk deletion path the metadata-row deletion
is still issued, strictly after all (best-effort) storage-removal attempts. -/
theorem c6_best_effort_storage_cleanup :
    (∀ (u : String) (sf : String → Bool) (path : String),
        extractStoragePath u = some path → sf path = true →
        deleteProductImage u sf = [DelEvent.storageRemoveFailed path])
    ∧ (∀ (imageIds recordUrls : List String) (sf : String → Bool),
        ∃ pre, deleteProductImages imageIds recordUrls sf
            = pre ++ [DelEvent.rowDelete imageIds]
          ∧ ∀ e ∈ pre, e.isStorageEvent = true) := by
  constructor
  · intro u sf path hpath hfail
    simp [deleteProductImage, hpath, storageRemoveOp, hfail]
  · intro imageIds recordUrls sf
    refine ⟨recordUrls.flatMap (fun url => deleteProductImage url sf), rfl, ?_⟩
    intro e he
    obtain ⟨url, _, hmem⟩ := List.mem_flatMap.mp he
    exact deleteProductImage_isStorageEvent url sf e hmem

/-- Witness for C6 at a concrete URL whose storage removal always fails. -/
theorem c6_witness :
    deleteProductImage "https://cdn.example/storage/v1/object/public/product/u/x.jpg"
        (fun _ => true)
      = [DelEvent.storageRemoveFailed "product/u/x.jpg"]
    ∧ ∃ pre, deleteProductImages ["id1"]
          ["https://cdn.example/storage/v1/object/public/product/u/x.jpg"]
          (fun _ => true)
        = pre ++ [DelEvent.rowDelete ["id1"]]
        ∧ ∀ e ∈ pre, e.isStorageEvent = true :=
  ⟨c6_best_effort_storage_cleanup.1
      "https://cdn.example/storage/v1/object/public/product/u/x.jpg"
      (fun _ => true) "product/u/x.jpg" (by decide) rfl,
   c6_best_effort_storage_cleanup.2 ["id1"]
      ["https://cdn.example/storage/v1/object/public/product/u/x.jpg"]
      (fun _ => true)⟩

/-! ## Media manager: busy flag (C5) and capacity (C3) -/

lemma mkItemsFrom_length (images : List MediaItem) (vr : ValidationResult)
    (ids urls : Nat → String) :
    ∀ (i : Nat) (fs : List MFile), (mkItemsFrom images vr ids urls i fs).length = fs.length := by
  intro i fs
  induction fs generalizing i with
  | nil => rfl
  | cons f fs ih => simp [mkItemsFrom, ih]

lemma mkItemsFrom_filterMap_file (images : List MediaItem) (vr : ValidationResult)
    (ids urls : Nat → String) :
    ∀ (i : Nat) (fs : List MFile),
      (mkItemsFrom images vr ids urls i fs).filterMap (·.file) = fs := by
  intro i fs
  induction fs generalizing i with
  | nil => rfl
  | cons f fs ih => simp [mkItemsFrom, List.filterMap_cons, ih]

/-- C5: while an addition is in flight (busy flag set), a second non-empty
addition request is rejected with the busy signal and the whole state is
returned untouched; and an addition that does start always finishes with the
busy flag cleared again (the `finally` block). -/
theorem c5_busy_rejection :
    (∀ (maxImages : Nat) (st : MMState) (files : List MFile)
        (validate : List MFile → ValidationResult) (ids urls : Nat → String),
        files ≠ [] → st.busy = true →
        handleFileSelect maxImages st files validate ids urls = (.busyRejected, st))
    ∧ (∀ (maxImages : Nat) (st : MMState) (files : List MFile)
        (validate : List MFile → ValidationResult) (ids urls : Nat → String),
        st.busy = false →
        (handleFileSelect maxImages st files validate ids urls).2.busy = false) := by
  constructor
  · intro m st files validate ids urls hne hbusy
    rw [handleFileSelect, if_neg (by simp [hne]), if_pos hbusy]
  · intro m st files validate ids urls hbusy
    rw [handleFileSelect]
    split
    · exact hbusy
    · rw [if_neg (by rw [hbusy]; exact Bool.false_ne_true)]
      dsimp only
      split
      · rfl
      · split <;> rfl

/-- A concrete busy manager state. -/
def stBusy : MMState := ⟨true, [], fun _ => none, []⟩

/-- A concrete idle manager state. -/
def stIdle : MMState := ⟨false, [], fun _ => none, []⟩

/-- A validator oracle that accepts every file and produces empty maps. -/
def valAcceptAll : List MFile → ValidationResult :=
  fun l => ⟨l, [], [], fun _ => none, fun _ => none, fun _ => none⟩

/-- A trivial uuid / object-URL oracle. -/
def oracleNames : Nat → String := fun i => "uuid-" ++ toString i

/-- Witness for C5 on concrete states. -/
theorem c5_witness :
    handleFileSelect 10 stBusy [⟨"a.png", 100⟩] valAcceptAll oracleNames oracleNames
        = (.busyRejected, stBusy)
    ∧ (handleFileSelect 10 stIdle [⟨"a.png", 100⟩] valAcceptAll oracleNames
        oracleNames).2.busy = false :=
  ⟨c5_busy_rejection.1 10 stBusy [⟨"a.png", 100⟩] valAcceptAll oracleNames oracleNames
      (by simp) rfl,
   c5_busy_rejection.2 10 stIdle [⟨"a.png", 100⟩] valAcceptAll oracleNames oracleNames rfl⟩

/-- C3: starting below or at the maximum, the file-addition operation never
grows the list beyond `maxImages`, and the files it accepts are (in input
order) a sub-sequence of the first `maxImages - images.length` files of the
incoming batch — the excess tail of the batch is never accepted. Assumes only
what spec §4.1 guarantees of the external validator: its accepted list is a
sub-sequence of its input. -/
theorem c3_capacity_truncation (maxImages : Nat) (st : MMState) (files : List MFile)
    (validate : List MFile → ValidationResult) (ids urls : Nat → String)
    (hlen : st.images.length ≤ maxImages)
    (hvalid : ∀ l, (validate l).validFiles.Sublist l) :
    ((handleFileSelect maxImages st files validate ids urls).2.images.length ≤ maxImages)
    ∧ ((((handleFileSelect maxImages st files validate ids urls).2.images.drop
          st.images.length).filterMap (·.file)).Sublist
        (files.take (maxImages - st.images.length))) := by
  rw [handleFileSelect]
  split
  · exact ⟨hlen, by simp⟩
  · split
    · exact ⟨hlen, by simp⟩
    · dsimp only
      split
      · exact ⟨hlen, by simp⟩
      · split
        · exact ⟨hlen, by simp⟩
        · constructor
          · simp only [List.length_append, mkItemsFrom_length]
            have h1 : (validate (files.take (maxImages - st.images.length))).validFiles.length
                ≤ (files.take (maxImages - st.images.length)).length :=
              (hvalid _).length_le
            have h2 : (files.take (maxImages - st.images.length)).length
                ≤ maxImages - st.images.length := by
              simp [List.length_take]
            omega
          · rw [List.drop_left, mkItemsFrom_filterMap_file]
            exact hvalid _

/-- A concrete idle state already holding one (featured) image. -/
def stOneImage : MMState :=
  ⟨false,
   [⟨"old-1", "blob:old", some ⟨"z.png", 9⟩, true, "image", some "h", some "v", some "b"⟩],
   fun _ => none, []⟩

/-- Witness for C3: a 3-file batch against capacity 2 with one slot free. -/
theorem c3_witness :
    ((handleFileSelect 2 stOneImage
        [⟨"a.png", 1⟩, ⟨"b.png", 2⟩, ⟨"c.png", 3⟩] valAcceptAll oracleNames
        oracleNames).2.images.length ≤ 2)
    ∧ ((((handleFileSelect 2 stOneImage
          [⟨"a.png", 1⟩, ⟨"b.png", 2⟩, ⟨"c.png", 3⟩] valAcceptAll oracleNames
          oracleNames).2.images.drop stOneImage.images.length).filterMap (·.file)).Sublist
        ([⟨"a.png", 1⟩, ⟨"b.png", 2⟩, ⟨"c.png", 3⟩].take
          (2 - stOneImage.images.length))) :=
  c3_capacity_truncation 2 stOneImage [⟨"a.png", 1⟩, ⟨"b.png", 2⟩, ⟨"c.png", 3⟩]
    valAcceptAll oracleNames oracleNames (by simp [stOneImage])
    (fun l => List.Sublist.refl l)

/-! ## Media manager: removal (C9) -/

lemma find?_id_eq_some (l : List MediaItem) (t : MediaItem)
    (hnd : (l.map (·.id)).Nodup) (hmem : t ∈ l) :
    l.find? (fun img => img.id == t.id) = some t := by
  induction l with
  | nil => cases hmem
  | cons a l ih =>
    rw [List.map_cons, List.nodup_cons] at hnd
    rcases List.mem_cons.mp hmem with h | h
    · subst h
      simp [List.find?_cons]
    · have hne : (a.id == t.id) = false := by
        refine beq_eq_false_iff_ne.mpr fun heq => hnd.1 ?_
        rw [heq]
        exact List.mem_map_of_mem (·.id) h
      rw [List.find?_cons, hne]
      exact ih hnd.2 h

lemma filter_id_eq_singleton (l : List MediaItem) (t : MediaItem)
    (hnd : (l.map (·.id)).Nodup) (hmem : t ∈ l) :
    l.filter (fun img => img.id == t.id) = [t] := by
  induction l with
  | nil => cases hmem
  | cons a l ih =>
    rw [List.map_cons, List.nodup_cons] at hnd
    rcases List.mem_cons.mp hmem with h | h
    · subst h
      have hrest : l.filter (fun img => img.id == t.id) = [] := by
        rw [List.filter_eq_nil_iff]
        intro x hx heq
        refine hnd.1 ?_
        rw [← (beq_iff_eq.mp heq : x.id = t.id)]
        exact List.mem_map_of_mem (·.id) hx
      rw [List.filter_cons, if_pos (by simp), hrest]
    · have hne : (a.id == t.id) = false := by
        refine beq_eq_false_iff_ne.mpr fun heq => hnd.1 ?_
        rw [heq]
        exact List.mem_map_of_mem (·.id) h
      rw [List.filter_cons]
      rw [hne]
      exact ih hnd.2 h

lemma countP_split (l : List MediaItem) (p q qn : MediaItem → Bool)
    (hqn : ∀ a, qn a = !(q a)) :
    l.countP p = (l.filter q).countP p + (l.filter qn).countP p := by
  induction l with
  | nil => simp
  | cons a l ih =>
    rcases hq : q a with _ | _ <;>
      rcases hp : p a with _ | _ <;>
        simp [List.filter_cons, hq, hp, hqn, List.countP_cons, ih] <;> omega

lemma length_filter_split (l : List MediaItem) (q qn : MediaItem → Bool)
    (hqn : ∀ a, qn a = !(q a)) :
    (l.filter q).length + (l.filter qn).length = l.length := by
  induction l with
  | nil => simp
  | cons a l ih =>
    rcases hq : q a with _ | _ <;> simp [List.filter_cons, hq, hqn] <;> omega

/-- C9: in a list with exactly one featured item, removing the featured item
from a list of size at least 2 yields the former remainder with its first
item promoted to featured (and no other featured item); removing it from a
singleton list yields the empty list; and removing a non-featured item
returns exactly the remaining items with all flags untouched. -/
theorem c9_remove_featured_promotion (l : List MediaItem) (t : MediaItem)
    (hnd : (l.map (·.id)).Nodup) (hmem : t ∈ l) (hone : featuredCount l = 1) :
    (t.isFeatured = true → 2 ≤ l.length →
      ∃ hd tl, removeImageList l t.id = hd :: tl
        ∧ hd.isFeatured = true
        ∧ featuredCount (hd :: tl) = 1
        ∧ hd :: tl = promoteHead (l.filter (fun img => !(img.id == t.id))))
    ∧ (t.isFeatured = true → l.length = 1 → removeImageList l t.id = [])
    ∧ (t.isFeatured = false →
        removeImageList l t.id = l.filter (fun img => !(img.id == t.id))) := by
  have hfind := find?_id_eq_some l t hnd hmem
  have hsingle := filter_id_eq_singleton l t hnd hmem
  have hsplit := countP_split l (·.isFeatured) (fun img => img.id == t.id)
    (fun img => !(img.id == t.id)) (fun _ => rfl)
  rw [hsingle] at hsplit
  have hlenfilter := length_filter_split l (fun img => img.id == t.id)
    (fun img => !(img.id == t.id)) (fun _ => rfl)
  rw [hsingle] at hlenfilter
  rw [featuredCount, hsplit] at hone
  simp only [List.length_singleton] at hlenfilter
  refine ⟨?_, ?_, ?_⟩
  · intro hfeat hlen2
    have h1t : ([t].countP (·.isFeatured)) = 1 := by
      simp [List.countP_cons, hfeat]
    rw [h1t] at hone
    have hrem0 : (l.filter (fun img => !(img.id == t.id))).countP (·.isFeatured) = 0 := by
      omega
    have hremlen : 1 ≤ (l.filter (fun img => !(img.id == t.id))).length := by
      omega
    obtain ⟨hd, tl, hcons⟩ : ∃ hd tl,
        l.filter (fun img => !(img.id == t.id)) = hd :: tl := by
      rcases hrem : l.filter (fun img => !(img.id == t.id)) with _ | ⟨hd, tl⟩
      · rw [hrem] at hremlen; simp at hremlen
      · exact ⟨hd, tl, hrem⟩
    rw [hcons] at hrem0
    simp only [List.countP_cons] at hrem0
    have hhd : (hd.isFeatured : Bool) = false := by
      rcases hf : hd.isFeatured with _ | _
      · rfl
      · rw [hf] at hrem0; simp at hrem0
    have htl : tl.countP (·.isFeatured) = 0 := by
      rw [hhd] at hrem0; simpa using hrem0
    refine ⟨{ hd with isFeatured := true }, tl, ?_, rfl, ?_, ?_⟩
    · rw [removeImageList]
      simp only [hfind, hcons]
      rw [if_pos (by simp [hfeat])]
      rfl
    · simp only [featuredCount, List.countP_cons]
      simp [htl]
    · rw [hcons]
      rfl
  · intro hfeat hlen1
    have hrem0 : (l.filter (fun img => !(img.id == t.id))).length = 0 := by
      omega
    rw [removeImageList]
    simp only [hfind]
    rw [List.length_eq_zero.mp hrem0]
    simp
  · intro hfeat
    rw [removeImageList]
    simp only [hfind]
    rw [if_neg (by simp [hfeat])]

/-- Witness for C9 on a concrete two-image list. -/
theorem c9_witness :
    ∃ hd tl,
      removeImageList
        [⟨"a", "u1", none, true, "image", none, none, none⟩,
         ⟨"b", "u2", none, false, "image", none, none, none⟩] "a" = hd :: tl
      ∧ hd.isFeatured = true
      ∧ featuredCount (hd :: tl) = 1
      ∧ hd :: tl = promoteHead
          ([⟨"a", "u1", none, true, "image", none, none, none⟩,
            ⟨"b", "u2", none, false, "image", none, none, none⟩].filter
            (fun img => !(img.id == MediaItem.id
              ⟨"a", "u1", none, true, "image", none, none, none⟩))) :=
  (c9_remove_featured_promotion
      [⟨"a", "u1", none, true, "image", none, none, none⟩,
       ⟨"b", "u2", none, false, "image", none, none, none⟩]
      ⟨"a", "u1", none, true, "image", none, none, none⟩
      (by decide) (by decide) (by decide)).1 rfl (by decide)

/-! ## Media manager: crop completion (C10) -/

/-- The per-item transformation performed by `handleCropComplete` on the
image list: only the matching item's `url` and `file` change. -/
def cropTransform (cropId : String) (croppedFile : MFile) (newUrl : String)
    (img : MediaItem) : MediaItem :=
  if img.id == cropId then { img with url := newUrl, file := some croppedFile } else img

lemma cropFold_items (cropId : String) (cf : MFile) (nu : String) :
    ∀ (l : List MediaItem)
      (acc : List MediaItem × ((String → Option (MFile × String)) × List String)),
      (l.foldl (cropFold cropId cf nu) acc).1
        = acc.1 ++ l.map (cropTransform cropId cf nu) := by
  intro l
  induction l with
  | nil => intro acc; simp
  | cons a l ih =>
    intro acc
    rw [List.foldl_cons, ih, List.map_cons]
    rcases ha : (a.id == cropId) with _ | _ <;>
      simp [cropFold, cropTransform, ha]

lemma cropFold_state_nomatch (cropId : String) (cf : MFile) (nu : String) :
    ∀ (l : List MediaItem)
      (acc : List MediaItem × ((String → Option (MFile × String)) × List String)),
      (∀ x ∈ l, (x.id == cropId) = false) →
      (l.foldl (cropFold cropId cf nu) acc).2 = acc.2 := by
  intro l
  induction l with
  | nil => intro acc _; rfl
  | cons a l ih =>
    intro acc hno
    rw [List.foldl_cons]
    have ha := hno a (by simp)
    rw [ih _ (fun x hx => hno x (by simp [hx]))]
    simp [cropFold, ha]

/-- C10: completing a crop on an existing item replaces only that item's
`url` and `file` (every other field of it and every other item are
untouched), appends exactly one revocation of the object URL previously held
for that id, and replaces the id's entry in the reference map with the new
file and URL, leaving every other entry and the busy flag unchanged. -/
theorem c10_crop_frame (st : MMState) (t : MediaItem) (cf : MFile) (nu : String)
    (hnd : (st.images.map (·.id)).Nodup) (hmem : t ∈ st.images)
    (r : MFile × String) (href : st.refs t.id = some r) :
    (handleCropComplete st t.id cf nu).images
      = st.images.map (cropTransform t.id cf nu)
    ∧ (handleCropComplete st t.id cf nu).revoked = st.revoked ++ [r.2]
    ∧ (handleCropComplete st t.id cf nu).refs t.id = some (cf, nu)
    ∧ (∀ k, k ≠ t.id → (handleCropComplete st t.id cf nu).refs k = st.refs k)
    ∧ (handleCropComplete st t.id cf nu).busy = st.busy
    ∧ ((handleCropComplete st t.id cf nu).images.map (·.id)
        = st.images.map (·.id))
    ∧ ((handleCropComplete st t.id cf nu).images.map (·.isFeatured)
        = st.images.map (·.isFeatured)) := by
  obtain ⟨l₁, l₂, hdec⟩ := List.append_of_mem hmem
  have hids : (st.images.map (·.id)).Nodup := hnd
  rw [hdec] at hids
  rw [List.map_append, List.map_cons] at hids
  have hnotin₁ : t.id ∉ l₁.map (·.id) := by
    have := (List.nodup_append.mp hids).2.2
    intro hids₁
    exact this hids₁ (by simp)
  have hnotin₂ : t.id ∉ l₂.map (·.id) :=
    (List.nodup_cons.mp (List.nodup_append.mp hids).2.1).1
  have hno₁ : ∀ x ∈ l₁, (x.id == t.id) = false := by
    intro x hx
    refine beq_eq_false_iff_ne.mpr fun heq => hnotin₁ ?_
    rw [← heq]
    exact List.mem_map_of_mem (·.id) hx
  have hno₂ : ∀ x ∈ l₂, (x.id == t.id) = false := by
    intro x hx
    refine beq_eq_false_iff_ne.mpr fun heq => hnotin₂ ?_
    rw [← heq]
    exact List.mem_map_of_mem (·.id) hx
  have hstate : (st.images.foldl (cropFold t.id cf nu) ([], st.refs, st.revoked)).2
      = ((fun k => if k == t.id then some (cf, nu) else st.refs k : String → Option (MFile × String)),
         st.revoked ++ [r.2]) := by
    rw [hdec, List.foldl_append, List.foldl_cons]
    have h₁ := cropFold_state_nomatch t.id cf nu l₁ ([], st.refs, st.revoked) hno₁
    have hA : (cropFold t.id cf nu (l₁.foldl (cropFold t.id cf nu)
        ([], st.refs, st.revoked)) t).2
        = ((fun k => if k == t.id then some (cf, nu) else st.refs k :
            String → Option (MFile × String)),
           st.revoked ++ [r.2]) := by
      rw [cropFold]
      rw [if_pos (by simp)]
      have hrefs1 : (l₁.foldl (cropFold t.id cf nu) ([], st.refs, st.revoked)).2.1
          = st.refs := by rw [h₁]
      have hrev1 : (l₁.foldl (cropFold t.id cf nu) ([], st.refs, st.revoked)).2.2
          = st.revoked := by rw [h₁]
      rw [hrefs1, hrev1, href]
    rw [cropFold_state_nomatch t.id cf nu l₂ _ hno₂]
    exact hA
  have hitems := cropFold_items t.id cf nu st.images ([], st.refs, st.revoked)
  refine ⟨?_, ?_, ?_, ?_, rfl, ?_, ?_⟩
  · rw [handleCropComplete]
    dsimp only
    rw [hitems]
    rfl
  · rw [handleCropComplete]
    dsimp only
    rw [hstate]
  · rw [handleCropComplete]
    dsimp only
    rw [hstate]
    simp
  · intro k hk
    rw [handleCropComplete]
    dsimp only
    rw [hstate]
    simp [beq_eq_false_iff_ne.mpr hk]
  · rw [handleCropComplete]
    dsimp only
    rw [hitems, List.nil_append, List.map_map]
    refine List.map_congr_left fun img _ => ?_
    rw [Function.comp_apply, cropTransform]
    rcases h : (img.id == t.id) with _ | _ <;> simp [h]
  · rw [handleCropComplete]
    dsimp only
    rw [hitems, List.nil_append, List.map_map]
    refine List.map_congr_left fun img _ => ?_
    rw [Function.comp_apply, cropTransform]
    rcases h : (img.id == t.id) with _ | _ <;> simp [h]

/-- A concrete state with two images and a held reference for image "a". -/
def stCrop : MMState :=
  ⟨false,
   [⟨"a", "blob:a", some ⟨"a.png", 1⟩, true, "image", none, none, none⟩,
    ⟨"b", "blob:b", some ⟨"b.png", 2⟩, false, "image", none, none, none⟩],
   fun k => if k == "a" then some (⟨"a.png", 1⟩, "blob:a") else none,
   []⟩

/-- Witness for C10 on a concrete two-image state with a held reference. -/
theorem c10_witness :
    (handleCropComplete stCrop "a" ⟨"crop.jpg", 5⟩ "blob:new").images
        = stCrop.images.map (cropTransform "a" ⟨"crop.jpg", 5⟩ "blob:new")
    ∧ (handleCropComplete stCrop "a" ⟨"crop.jpg", 5⟩ "blob:new").revoked
        = stCrop.revoked ++ ["blob:a"] := by
  have h := c10_crop_frame stCrop
      ⟨"a", "blob:a", some ⟨"a.png", 1⟩, true, "image", none, none, none⟩
      ⟨"crop.jpg", 5⟩ "blob:new" (by decide) (by simp [stCrop])
      (⟨"a.png", 1⟩, "blob:a") rfl
  exact ⟨h.1, h.2.1⟩

/-! ## Media manager: the featured-image invariant (C1) -/

/-- Valid manager state: exactly one featured item when the list is
non-empty (none when empty), and client-generated ids are pairwise distinct
(the source generates them with `uuidv4`). -/
def ValidState (st : MMState) : Prop :=
  featuredCount st.images = (if st.images.isEmpty then 0 else 1)
  ∧ (st.images.map (·.id)).Nodup

lemma mkItemsFrom_featured_pos (images : List MediaItem) (vr : ValidationResult)
    (ids urls : Nat → String) :
    ∀ (i : Nat) (fs : List MFile), i ≠ 0 →
      featuredCount (mkItemsFrom images vr ids urls i fs) = 0 := by
  intro i fs
  induction fs generalizing i with
  | nil => intro _; rfl
  | cons f fs ih =>
    intro hi
    rw [mkItemsFrom, featuredCount, List.countP_cons]
    have hzero : ((images.length == 0) && (i == 0)) = false := by
      have : (i == 0) = false := by
        refine beq_eq_false_iff_ne.mpr hi
      simp [this]
    rw [← featuredCount, ih (i + 1) (Nat.succ_ne_zero i)]
    simp [hzero]

lemma mkItemsFrom_featuredCount (images : List MediaItem) (vr : ValidationResult)
    (ids urls : Nat → String) (fs : List MFile) (hfs : fs ≠ []) :
    featuredCount (mkItemsFrom images vr ids urls 0 fs)
      = if images.length = 0 then 1 else 0 := by
  rcases fs with _ | ⟨f, rest⟩
  · exact absurd rfl hfs
  · rw [mkItemsFrom, featuredCount, List.countP_cons, ← featuredCount,
      mkItemsFrom_featured_pos images vr ids urls 1 rest (Nat.one_ne_zero)]
    rcases h : images.length with _ | n
    · simp [h]
    · simp [h]

lemma mkItemsFrom_map_id (images : List MediaItem) (vr : ValidationResult)
    (ids urls : Nat → String) :
    ∀ (i : Nat) (fs : List MFile),
      (mkItemsFrom images vr ids urls i fs).map (·.id)
        = (List.range' i fs.length).map (fun j => "new-" ++ ids j) := by
  intro i fs
  induction fs generalizing i with
  | nil => rfl
  | cons f fs ih =>
    rw [mkItemsFrom, List.map_cons, List.length_cons, List.range'_succ, List.map_cons,
      ih (i + 1)]

lemma promoteHead_map_id (l : List MediaItem) :
    (promoteHead l).map (·.id) = l.map (·.id) := by
  rcases l with _ | ⟨h, t⟩ <;> rfl

lemma removeImage_images (st : MMState) (imageId : String) :
    (removeImage st imageId).images = removeImageList st.images imageId := by
  rw [removeImage]
  rcases st.refs imageId with _ | r <;> rfl

lemma validState_removeImageList (l : List MediaItem) (imageId : String)
    (h1 : featuredCount l = if l.isEmpty then 0 else 1)
    (hnd : (l.map (·.id)).Nodup) :
    featuredCount (removeImageList l imageId)
      = (if (removeImageList l imageId).isEmpty then 0 else 1)
    ∧ ((removeImageList l imageId).map (·.id)).Nodup := by
  by_cases hex : ∃ t ∈ l, t.id = imageId
  · obtain ⟨t, hmem, hid⟩ := hex
    subst hid
    have hfind := find?_id_eq_some l t hnd hmem
    have hsingle := filter_id_eq_singleton l t hnd hmem
    have hsplit := countP_split l (·.isFeatured) (fun img => img.id == t.id)
      (fun img => !(img.id == t.id)) (fun _ => rfl)
    rw [hsingle] at hsplit
    have hndrem : ((l.filter (fun img => !(img.id == t.id))).map (·.id)).Nodup :=
      ((List.filter_sublist l).map (·.id)).nodup hnd
    have hne : l.isEmpty = false := by
      rcases l with _ | _
      · cases hmem
      · rfl
    rw [hne] at h1
    simp only [Bool.false_eq_true, if_false] at h1
    rw [featuredCount, hsplit] at h1
    rw [removeImageList]
    simp only [hfind]
    rcases hfeat : t.isFeatured with _ | _
    · have hcnt1 : ([t].countP (·.isFeatured)) = 0 := by simp [hfeat]
      rw [hcnt1] at h1
      rw [if_neg (by simp [hfeat])]
      have hremne : (l.filter (fun img => !(img.id == t.id))).isEmpty = false := by
        rcases hrem : l.filter (fun img => !(img.id == t.id)) with _ | _
        · rw [hrem] at h1; simp at h1
        · rw [hrem]; rfl
      rw [hremne]
      refine ⟨?_, hndrem⟩
      simp only [Bool.false_eq_true, if_false, featuredCount]
      omega
    · have hcnt1 : ([t].countP (·.isFeatured)) = 1 := by simp [hfeat]
      rw [hcnt1] at h1
      have hrem0 : (l.filter (fun img => !(img.id == t.id))).countP (·.isFeatured) = 0 := by
        omega
      rcases hrem : l.filter (fun img => !(img.id == t.id)) with _ | ⟨hd, tl⟩
      · rw [hrem]
        simp [featuredCount]
      · rw [hrem]
        rw [if_pos (by simp [hfeat])]
        rw [hrem] at hrem0 hndrem
        simp only [List.countP_cons] at hrem0
        have htl : tl.countP (·.isFeatured) = 0 := by
          rcases hf : hd.isFeatured with _ | _
          · rw [hf] at hrem0
            simpa using hrem0
          · rw [hf] at hrem0
            simp at hrem0
        constructor
        · rw [promoteHead]
          simp [featuredCount, List.countP_cons, htl]
        · have : ((promoteHead (hd :: tl)).map (·.id)) = ((hd :: tl).map (·.id)) :=
            promoteHead_map_id _
          rw [this]
          exact hndrem
  · push_neg at hex
    have hfind : l.find? (fun img => img.id == imageId) = none := by
      rw [List.find?_eq_none]
      intro x hx
      simp only [beq_iff_eq]
      exact hex x hx
    have hfilter : l.filter (fun img => !(img.id == imageId)) = l := by
      rw [List.filter_eq_self]
      intro x hx
      simp only [Bool.not_eq_eq_eq_not, Bool.not_true, beq_eq_false_iff_ne]
      exact hex x hx
    rw [removeImageList]
    simp only [hfind, hfilter]
    exact ⟨h1, hnd⟩

lemma cropTransform_id (cropId : String) (cf : MFile) (nu : String) (img : MediaItem) :
    (cropTransform cropId cf nu img).id = img.id := by
  rw [cropTransform]
  rcases h : (img.id == cropId) with _ | _ <;> simp [h]

lemma cropTransform_isFeatured (cropId : String) (cf : MFile) (nu : String)
    (img : MediaItem) :
    (cropTransform cropId cf nu img).isFeatured = img.isFeatured := by
  rw [cropTransform]
  rcases h : (img.id == cropId) with _ | _ <;> simp [h]

lemma handleCropComplete_images (st : MMState) (cropId : String) (cf : MFile)
    (nu : String) :
    (handleCropComplete st cropId cf nu).images
      = st.images.map (cropTransform cropId cf nu) := by
  rw [handleCropComplete]
  dsimp only
  rw [cropFold_items]
  rfl

lemma validState_handleFileSelect (m : Nat) (st : MMState) (files : List MFile)
    (validate : List MFile → ValidationResult) (ids urls : Nat → String)
    (hinj : ∀ j k,
        j < (validate (files.take (m - st.images.length))).validFiles.length →
        k < (validate (files.take (m - st.images.length))).validFiles.length →
        "new-" ++ ids j = "new-" ++ ids k → j = k)
    (hfresh : ∀ j,
        j < (validate (files.take (m - st.images.length))).validFiles.length →
        ("new-" ++ ids j) ∉ st.images.map (·.id))
    (hv : ValidState st) :
    ValidState (handleFileSelect m st files validate ids urls).2 := by
  rw [handleFileSelect]
  split
  · exact hv
  · split
    · exact hv
    · dsimp only
      split
      · exact hv
      · split
        · exact hv
        · rename_i hvfne
          constructor
          · rw [featuredCount]
            dsimp only
            rw [List.countP_append, ← featuredCount, ← featuredCount,
              mkItemsFrom_featuredCount _ _ _ _ _
                (fun he => hvfne (by rw [he]; rfl))]
            have h1 := hv.1
            rcases hims : st.images with _ | ⟨a, l⟩
            · rw [hims] at h1 hvfne
              simp only [List.isEmpty_nil, if_true] at h1
              rw [h1]
              simp only [List.length_nil, Nat.sub_zero] at hvfne ⊢
              have hne : (mkItemsFrom ([] : List MediaItem)
                  (validate (files.take m)) ids urls 0
                  (validate (files.take m)).validFiles) ≠ [] := by
                intro he
                apply hvfne
                have hlen := mkItemsFrom_length ([] : List MediaItem)
                  (validate (files.take m)) ids urls 0
                  (validate (files.take m)).validFiles
                rw [he] at hlen
                rw [List.isEmpty_iff]
                exact List.length_eq_zero.mp hlen.symm
              simp [List.isEmpty_iff, hne]
            · rw [hims] at h1
              simp only [List.isEmpty_cons, Bool.false_eq_true, if_false] at h1
              rw [h1]
              simp
          · dsimp only
            rw [List.map_append, mkItemsFrom_map_id]
            refine hv.2.append ?_ ?_
            · refine (List.nodup_range' 0 _ 1 Nat.one_pos).map_on ?_
              intro x hx y hy hxy
              have hxlt := (List.mem_range'_1.mp hx).2
              have hylt := (List.mem_range'_1.mp hy).2
              exact hinj x y (by omega) (by omega) hxy
            · rw [List.disjoint_right]
              intro a ha
              obtain ⟨j, hj, hja⟩ := List.mem_map.mp ha
              have hjlt := (List.mem_range'_1.mp hj).2
              rw [← hja]
              exact hfresh j (by omega)

lemma validState_removeImage (st : MMState) (imageId : String)
    (hv : ValidState st) : ValidState (removeImage st imageId) := by
  have h := validState_removeImageList st.images imageId hv.1 hv.2
  rw [ValidState, removeImage_images]
  exact h

lemma validState_setFeaturedImage (st : MMState) (imageId : String)
    (hmem : imageId ∈ st.images.map (·.id)) (hv : ValidState st) :
    ValidState (setFeaturedImage st imageId) := by
  obtain ⟨t, htmem, htid⟩ := List.mem_map.mp hmem
  have hne : st.images ≠ [] := by
    intro he
    rw [he] at htmem
    cases htmem
  constructor
  · rw [setFeaturedImage]
    dsimp only
    rw [featuredCount, List.countP_map]
    have hcomp : ((fun x => x.isFeatured) ∘
        (fun img => { img with isFeatured := img.id == imageId } : MediaItem → MediaItem))
        = fun img => img.id == imageId := rfl
    rw [hcomp, List.countP_eq_length_filter, ← htid,
      filter_id_eq_singleton st.images t hv.2 htmem]
    simp [List.isEmpty_iff, hne]
  · rw [setFeaturedImage]
    dsimp only
    rw [List.map_map]
    have hcomp : ((fun x => x.id) ∘
        (fun img => { img with isFeatured := img.id == imageId } : MediaItem → MediaItem))
        = fun img => img.id := rfl
    rw [hcomp]
    exact hv.2

lemma validState_handleCropComplete (st : MMState) (cropId : String) (cf : MFile)
    (nu : String) (hv : ValidState st) :
    ValidState (handleCropComplete st cropId cf nu) := by
  rw [ValidState, handleCropComplete_images]
  constructor
  · rw [featuredCount, List.countP_map]
    have hc : st.images.countP ((fun x => x.isFeatured) ∘ cropTransform cropId cf nu)
        = st.images.countP (·.isFeatured) := by
      refine List.countP_congr fun a _ => ?_
      rw [Function.comp_apply, cropTransform_isFeatured]
    rw [hc, ← featuredCount, hv.1]
    rcases st.images with _ | _ <;> rfl
  · rw [List.map_map]
    have hc : st.images.map ((fun x => x.id) ∘ cropTransform cropId cf nu)
        = st.images.map (·.id) := by
      refine List.map_congr_left fun a _ => ?_
      rw [Function.comp_apply, cropTransform_id]
    rw [hc]
    exact hv.2

/-- One step of the Media Manager: file addition (with fresh uuids, as
`uuidv4` guarantees), removal, explicit feature-selection of an item in the
list (the UI only offers ids of rendered items), or crop completion. -/
inductive MMStep (maxImages : Nat) : MMState → MMState → Prop
  | addFiles (st : MMState) (files : List MFile)
      (validate : List MFile → ValidationResult) (ids urls : Nat → String)
      (hinj : ∀ j k,
        j < (validate (files.take (maxImages - st.images.length))).validFiles.length →
        k < (validate (files.take (maxImages - st.images.length))).validFiles.length →
        "new-" ++ ids j = "new-" ++ ids k → j = k)
      (hfresh : ∀ j,
        j < (validate (files.take (maxImages - st.images.length))).validFiles.length →
        ("new-" ++ ids j) ∉ st.images.map (·.id)) :
      MMStep maxImages st (handleFileSelect maxImages st files validate ids urls).2
  | removeOp (st : MMState) (imageId : String) :
      MMStep maxImages st (removeImage st imageId)
  | setFeaturedOp (st : MMState) (imageId : String)
      (hmem : imageId ∈ st.images.map (·.id)) :
      MMStep maxImages st (setFeaturedImage st imageId)
  | cropOp (st : MMState) (cropId : String) (croppedFile : MFile) (newUrl : String) :
      MMStep maxImages st (handleCropComplete st cropId croppedFile newUrl)

lemma validState_step (m : Nat) (st st' : MMState) (h : MMStep m st st')
    (hv : ValidState st) : ValidState st' := by
  cases h with
  | addFiles files validate ids urls hinj hfresh =>
    exact validState_handleFileSelect m st files validate ids urls hinj hfresh hv
  | removeOp imageId => exact validState_removeImage st imageId hv
  | setFeaturedOp imageId hmem => exact validState_setFeaturedImage st imageId hmem hv
  | cropOp cropId croppedFile newUrl =>
    exact validState_handleCropComplete st cropId croppedFile newUrl hv

/-- C1: every state reachable from a valid state by Media Manager operations
(file addition, removal, explicit feature-selection, crop completion) has
exactly one featured item when its list is non-empty and none when empty. -/
theorem c1_featured_invariant (m : Nat) (s s' : MMState) (hv : ValidState s)
    (hr : Relation.ReflTransGen (MMStep m) s s') :
    featuredCount s'.images = if s'.images.isEmpty then 0 else 1 := by
  have hvalid : ValidState s' := by
    induction hr with
    | refl => exact hv
    | tail _ hbc ih => exact validState_step m _ _ hbc ih
  exact hvalid.1

/-- Witness for C1: one addition step from the empty valid state yields a
singleton list with exactly one featured item. -/
theorem c1_witness :
    featuredCount (handleFileSelect 10 stIdle [⟨"a.png", 100⟩] valAcceptAll
        oracleNames oracleNames).2.images
      = if (handleFileSelect 10 stIdle [⟨"a.png", 100⟩] valAcceptAll
          oracleNames oracleNames).2.images.isEmpty then 0 else 1 :=
  c1_featured_invariant 10 stIdle
    (handleFileSelect 10 stIdle [⟨"a.png", 100⟩] valAcceptAll oracleNames oracleNames).2
    ⟨rfl, List.nodup_nil⟩
    (Relation.ReflTransGen.single
      (MMStep.addFiles stIdle [⟨"a.png", 100⟩] valAcceptAll oracleNames oracleNames
        (fun j k hj hk _ => by
          have hlen : (valAcceptAll (List.take (10 - stIdle.images.length)
              [⟨"a.png", 100⟩])).validFiles.length = 1 := rfl
          rw [hlen] at hj hk
          omega)
        (fun j _ => by simp [stIdle])))

end Labarel
